import Mathlib

set_option maxRecDepth 10000

/-!
# Verification of the jest-extend matcher adapter layer

Shallow embedding of `src/packages/expect/src/jest-extend.ts`: the
`toHaveBeenCalledBefore` built-in matcher and its `predicate`, the fluent
dispatch wrapper `expectWrapper`, the asymmetric-matcher adapter
`asymmetricMatch`, and the registration loop of `JestExtendPlugin` that
installs matchers on the three process-wide registries.
-/

section StringUtils

/-- Whether the char list `n` is a prefix of `h` (first argument is the
needle). -/
def listStartsWith : List Char → List Char → Bool
  | [], _ => true
  | _ :: _, [] => false
  | a :: as, b :: bs => a == b && listStartsWith as bs

/-- Whether the char list `n` occurs contiguously inside the haystack. -/
def listContainsSub (n : List Char) : List Char → Bool
  | [] => n.isEmpty
  | b :: bs => listStartsWith n (b :: bs) || listContainsSub n bs

/-- Substring test on strings, via the underlying char lists. -/
def strContains (s n : String) : Bool :=
  listContainsSub n.data s.data

end StringUtils

section DataModel

/-- JavaScript values as the matcher layer observes them: mock/spy functions
carrying `mock.invocationCallOrder`, arrays of numbers (the invocation-order
lists handed to the renderers), and anything else. -/
inductive JsValue where
  | mockFn (invocationCallOrder : List Nat)
  | numList (l : List Nat)
  | obj (s : String)
deriving DecidableEq

/-- Modelled from the spec: `isJestMockOrSpy` (imported from `./utils`, whose
source is not part of the provided files) is the "mock/spy capability check:
`isMockOrSpy(value) -> boolean`" of the spec; it recognizes exactly the values
exposing an invocation-order record. -/
def isJestMockOrSpy : JsValue → Bool
  | .mockFn _ => true
  | _ => false

/-- Reading of `value.mock.invocationCallOrder`, done only after
`isJestMockOrSpy` succeeded. -/
def invocationOrderOf : JsValue → List Nat
  | .mockFn l => l
  | _ => []

/-- The rendering helpers of `this.utils` used by `toHaveBeenCalledBefore`:
`matcherHint`, `printReceived`, `printExpected` (external collaborators). -/
structure MatcherUtils where
  matcherHint : String → String
  printReceived : JsValue → String
  printExpected : JsValue → String

/-- Rendering of a number list as `[1, 5]`. -/
def renderNatList (l : List Nat) : String :=
  "[" ++ String.intercalate ", " (l.map toString) ++ "]"

/-- Rendering of a value, used by the concrete utilities stand-in. -/
def renderValue : JsValue → String
  | .mockFn _ => "[MockFunction]"
  | .numList l => renderNatList l
  | .obj s => s

/-- Modelled from the spec: a concrete stand-in for the utilities bundle
returned by `getMatcherUtils()` (in `./jest-matcher-utils`, whose source is
not part of the provided files); the spec only requires "Rendering:
stringify(value) -> string". -/
def defaultUtils : MatcherUtils where
  matcherHint := fun s => "expect(actual)" ++ s
  printReceived := renderValue
  printExpected := renderValue

/-- The verdict `{ pass, message, actual, expected }` of a matcher, with the
lazily evaluated message. -/
structure SyncExpectationResult where
  pass : Bool
  message : Unit → String
  actual : Option JsValue
  expected : Option JsValue

/-- What a matcher invocation hands back to the adapters: either a
synchronously resolved verdict or a Promise that will resolve to one. -/
inductive MatcherReturn where
  | sync (r : SyncExpectationResult)
  | promise (r : SyncExpectationResult)

end DataModel

section CalledBefore

/-- The guard chain of `predicate`: an empty first order fails, an empty
second order passes iff `failIfNoSecondInvocation` is false, otherwise
compare the `Math.min` of the two (nonempty) orders. -/
def predicate (firstInvocationCallOrder secondInvocationCallOrder : List Nat)
    (failIfNoSecondInvocation : Bool) : Bool :=
  match firstInvocationCallOrder, secondInvocationCallOrder with
  | [], _ => false
  | _ :: _, [] => !failIfNoSecondInvocation
  | a :: as, b :: bs =>
    decide (List.foldl Nat.min a as < List.foldl Nat.min b bs)

/-- The message produced when `pass` is true (shown for a negated failure). -/
def calledBeforeNotMessage (u : MatcherUtils) (a b : List Nat) : String :=
  u.matcherHint ".not.toHaveBeenCalledBefore" ++ "\n\n" ++
  "Expected first mock to not have been called before second mock, but it was." ++ "\n\n" ++
  "First mock call order: " ++ u.printExpected (.numList a) ++ "\n" ++
  "Second mock call order: " ++ u.printReceived (.numList b)

/-- The message produced when `pass` is false. -/
def calledBeforeFailMessage (u : MatcherUtils) (a b : List Nat) : String :=
  u.matcherHint ".toHaveBeenCalledBefore" ++ "\n\n" ++
  "Expected first mock to have been called before second mock, but it was not." ++ "\n\n" ++
  "First mock call order: " ++ u.printExpected (.numList a) ++ "\n" ++
  "Second mock call order: " ++ u.printReceived (.numList b)

/-- The built-in matcher `toHaveBeenCalledBefore(actual, expected,
failIfNoSecondInvocation = true)`, with `this.utils` passed explicitly. -/
def toHaveBeenCalledBefore (utils : MatcherUtils) (actual expected : JsValue)
    (failIfNoSecondInvocation : Bool) : SyncExpectationResult :=
  if !isJestMockOrSpy actual then
    { pass := false
      message := fun _ =>
        utils.matcherHint ".toHaveBeenCalledBefore" ++ "\n\n" ++
        "Received value must be a mock or spy function" ++ "\n\n" ++
        "Received: " ++ utils.printReceived actual
      actual := none
      expected := none }
  else if !isJestMockOrSpy expected then
    { pass := false
      message := fun _ =>
        utils.matcherHint ".toHaveBeenCalledBefore" ++ "\n\n" ++
        "Expected value must be a mock or spy function" ++ "\n\n" ++
        "Expected: " ++ utils.printExpected expected
      actual := none
      expected := none }
  else
    let firstInvocationCallOrder := invocationOrderOf actual
    let secondInvocationCallOrder := invocationOrderOf expected
    let pass := predicate firstInvocationCallOrder secondInvocationCallOrder
      failIfNoSecondInvocation
    { pass := pass
      message := fun _ =>
        if pass then
          calledBeforeNotMessage utils firstInvocationCallOrder
            secondInvocationCallOrder
        else
          calledBeforeFailMessage utils firstInvocationCallOrder
            secondInvocationCallOrder
      actual := none
      expected := none }

end CalledBefore

section FluentWrapper

/-- The structured failure `JestExtendError(message, actual, expected)`. -/
structure JestExtendError where
  message : String
  actual : Option JsValue
  expected : Option JsValue
deriving DecidableEq

/-- The observable outcome of one `expectWrapper` call: a normal (void)
return, a synchronous throw, or a returned Promise that resolves or rejects. -/
inductive WrapperOutcome where
  | retVoid
  | thrown (e : JestExtendError)
  | promiseResolved
  | promiseRejected (e : JestExtendError)
deriving DecidableEq

/-- The fluent dispatch adapter `expectWrapper`: given the negation flag read
from the live assertion and the matcher's return value, apply the decision
rule `(pass && isNot) || (!pass && !isNot)`; a Promise result is chained with
`.then`, so the decision fires on the rejection path instead. -/
def expectWrapper (isNot : Bool) (result : MatcherReturn) : WrapperOutcome :=
  match result with
  | .promise r =>
    if (r.pass && isNot) || (!r.pass && !isNot) then
      .promiseRejected ⟨r.message (), r.actual, r.expected⟩
    else
      .promiseResolved
  | .sync r =>
    if (r.pass && isNot) || (!r.pass && !isNot) then
      .thrown ⟨r.message (), r.actual, r.expected⟩
    else
      .retVoid

end FluentWrapper

section AsymmetricAdapter

/-- A JavaScript boolean-or-undefined, as produced by destructuring `pass`
off the matcher's return value and by `inverse ? !pass : pass`. -/
inductive JsBoolish where
  | jsUndefined
  | jsBool (b : Bool)
deriving DecidableEq

/-- Reading the `pass` property off the matcher's return value: a Promise
object has no `pass` property, so the read yields `undefined`. -/
def passFieldOf : MatcherReturn → JsBoolish
  | .sync r => .jsBool r.pass
  | .promise _ => .jsUndefined

/-- JavaScript `!` on a boolean-or-undefined: `!undefined` is `true`. -/
def jsNot : JsBoolish → Bool
  | .jsUndefined => true
  | .jsBool b => !b

/-- JavaScript truthiness of a boolean-or-undefined. -/
def jsTruthy : JsBoolish → Bool
  | .jsUndefined => false
  | .jsBool b => b

/-- The body of `CustomMatcher.asymmetricMatch`: destructure `pass` from the
matcher's return value and compute `this.inverse ? !pass : pass`. -/
def asymmetricMatch (inverse : Bool) (ret : MatcherReturn) : JsBoolish :=
  let pass := passFieldOf ret
  if inverse then .jsBool (jsNot pass) else pass

end AsymmetricAdapter

section Registration

/-- A matcher definition as the registration loop sees it: the built-in
`toHaveBeenCalledBefore` or a user-supplied function (tagged by an id). -/
inductive MatcherRef where
  | builtinCalledBefore
  | user (id : Nat)
deriving DecidableEq

/-- A matcher map, in JavaScript object-literal entry order. -/
abbrev MatcherMap := List (String × MatcherRef)

/-- The merge `{ ...matchers, toHaveBeenCalledBefore }`: the built-in entry
is written after the spread, so it is the last write for its key. -/
def mergeBuiltins (matchers : MatcherMap) : MatcherMap :=
  matchers ++ [("toHaveBeenCalledBefore", .builtinCalledBefore)]

/-- Property lookup on an object built from an entry list: the last write for
a key wins. -/
def objGet (m : MatcherMap) (k : String) : Option MatcherRef :=
  (m.reverse.find? (fun p => p.1 == k)).map (fun p => p.2)

/-- What gets installed under a name on a registry: the soft-wrapped fluent
adapter `wrapSoft(utils, expectWrapper)` (the external `wrapSoft` collaborator
is modelled as an opaque tag around the wrapped matcher), a bare un-wrapped
fluent adapter (never produced by the code), or an asymmetric-matcher
constructor. -/
inductive InstalledFn where
  | softWrapped (m : MatcherRef)
  | bareWrapper (m : MatcherRef)
  | asymCtor (inverse : Bool) (m : MatcherRef)
deriving DecidableEq

/-- The three process-wide registries: the global fluent matcher registry
(`globalThis[JEST_MATCHERS_OBJECT].matchers`), the fluent assertion prototype
(`c.Assertion.prototype`), and the global asymmetric matcher registry
(`globalThis[ASYMMETRIC_MATCHERS_OBJECT]`). -/
structure RegState where
  jestMatchers : String → Option InstalledFn
  assertionProto : String → Option InstalledFn
  asymmetricMatchers : String → Option InstalledFn

/-- Registries before any installation. -/
def emptyState : RegState where
  jestMatchers := fun _ => none
  assertionProto := fun _ => none
  asymmetricMatchers := fun _ => none

/-- Effect of `utils.addMethod` / `Object.defineProperty`: set the named
slot. -/
def setMethod (reg : String → Option InstalledFn) (name : String)
    (fn : InstalledFn) : String → Option InstalledFn :=
  fun k => if k = name then some fn else reg k

/-- One iteration of the `Object.entries(allMatchers).forEach` body: build
`softWrapper = wrapSoft(utils, expectWrapper)`, add it to the global matcher
registry and the assertion prototype, and mirror the positive asymmetric
constructor onto the global asymmetric registry. -/
def installOne (s : RegState) (name : String) (m : MatcherRef) : RegState :=
  let softWrapper := InstalledFn.softWrapped m
  { jestMatchers := setMethod s.jestMatchers name softWrapper
    assertionProto := setMethod s.assertionProto name softWrapper
    asymmetricMatchers :=
      setMethod s.asymmetricMatchers name (.asymCtor false m) }

/-- The `Object.entries(allMatchers).forEach` loop: install every entry, in
entry order, synchronously. -/
def installAll (s : RegState) (l : MatcherMap) : RegState :=
  l.foldl (fun st p => installOne st p.1 p.2) s

/-- The body of `JestExtendPlugin`: merge the built-in into the user map and
install every entry. -/
def jestExtendPlugin (s : RegState) (matchers : MatcherMap) : RegState :=
  installAll s (mergeBuiltins matchers)

/-- All three registries agree on which names are present. -/
def registriesAgree (s : RegState) : Prop :=
  ∀ n, (s.jestMatchers n).isSome = (s.assertionProto n).isSome ∧
    (s.jestMatchers n).isSome = (s.asymmetricMatchers n).isSome

end Registration

section StringLemmas

theorem listStartsWith_self_append (n q : List Char) :
    listStartsWith n (n ++ q) = true := by
  induction n with
  | nil => rfl
  | cons a as ih => simp [listStartsWith, ih]

theorem listStartsWith_self (n : List Char) : listStartsWith n n = true := by
  simpa using listStartsWith_self_append n []

theorem listContainsSub_of_startsWith (n h : List Char)
    (hs : listStartsWith n h = true) : listContainsSub n h = true := by
  cases h with
  | nil =>
    cases n with
    | nil => rfl
    | cons a as => simp [listStartsWith] at hs
  | cons b bs => simp [listContainsSub, hs]

theorem listContainsSub_append_left (n : List Char) (p h : List Char)
    (hc : listContainsSub n h = true) : listContainsSub n (p ++ h) = true := by
  induction p with
  | nil => simpa using hc
  | cons a as ih => simp [listContainsSub, ih]

theorem strContains_append_left_str (p s n : String)
    (h : strContains s n = true) : strContains (p ++ s) n = true := by
  unfold strContains at h ⊢
  exact listContainsSub_append_left n.data p.data s.data h

theorem strContains_self_append (n q : String) :
    strContains (n ++ q) n = true := by
  unfold strContains
  exact listContainsSub_of_startsWith n.data (n.data ++ q.data)
    (listStartsWith_self_append n.data q.data)

theorem strContains_self (n : String) : strContains n n = true := by
  unfold strContains
  exact listContainsSub_of_startsWith n.data n.data (listStartsWith_self n.data)

theorem listStartsWith_extend (n h q : List Char)
    (hs : listStartsWith n h = true) : listStartsWith n (h ++ q) = true := by
  induction n generalizing h with
  | nil => rfl
  | cons a as ih =>
    cases h with
    | nil => simp [listStartsWith] at hs
    | cons b bs =>
      simp only [listStartsWith, Bool.and_eq_true] at hs
      simp only [List.cons_append, listStartsWith, Bool.and_eq_true]
      exact ⟨hs.1, ih bs hs.2⟩

theorem listContainsSub_append_right (n h q : List Char)
    (hc : listContainsSub n h = true) : listContainsSub n (h ++ q) = true := by
  induction h with
  | nil =>
    have hn : n = [] := by
      cases n with
      | nil => rfl
      | cons a as => simp [listContainsSub] at hc
    subst hn
    cases q with
    | nil => rfl
    | cons b bs => simp [listContainsSub, listStartsWith]
  | cons b bs ih =>
    simp only [listContainsSub, Bool.or_eq_true] at hc
    simp only [List.cons_append, listContainsSub, Bool.or_eq_true]
    rcases hc with hs | hc
    · exact Or.inl (by
        simpa using listStartsWith_extend n (b :: bs) q hs)
    · exact Or.inr (ih hc)

theorem strContains_append_right_str (s q n : String)
    (h : strContains s n = true) : strContains (s ++ q) n = true := by
  unfold strContains at h ⊢
  exact listContainsSub_append_right n.data s.data q.data h

theorem strContains_append_end (p n : String) :
    strContains (p ++ n) n = true :=
  strContains_append_left_str p n n (strContains_self n)

end StringLemmas

section RegistrationLemmas

theorem installAll_cons (s : RegState) (a : String × MatcherRef)
    (t : MatcherMap) :
    installAll s (a :: t) = installAll (installOne s a.1 a.2) t :=
  rfl

theorem installAll_not_mem (l : MatcherMap) (s : RegState) (n : String)
    (h : n ∉ l.map Prod.fst) :
    (installAll s l).jestMatchers n = s.jestMatchers n ∧
    (installAll s l).assertionProto n = s.assertionProto n ∧
    (installAll s l).asymmetricMatchers n = s.asymmetricMatchers n := by
  induction l generalizing s with
  | nil => exact ⟨rfl, rfl, rfl⟩
  | cons a t ih =>
    simp only [List.map_cons, List.mem_cons, not_or] at h
    obtain ⟨hne, hmem⟩ := h
    rw [installAll_cons]
    refine (ih (installOne s a.1 a.2) hmem).imp (fun h1 => ?_)
      (fun h2 => h2.imp (fun h1 => ?_) (fun h1 => ?_)) <;>
      simpa [installOne, setMethod, hne] using h1

theorem installAll_mem (l : MatcherMap) (s : RegState) (n : String)
    (h : n ∈ l.map Prod.fst) :
    ∃ m : MatcherRef,
      (installAll s l).jestMatchers n = some (.softWrapped m) ∧
      (installAll s l).assertionProto n = some (.softWrapped m) ∧
      (installAll s l).asymmetricMatchers n = some (.asymCtor false m) := by
  induction l generalizing s with
  | nil => simp at h
  | cons a t ih =>
    rw [installAll_cons]
    by_cases hmem : n ∈ t.map Prod.fst
    · exact ih (installOne s a.1 a.2) hmem
    · simp only [List.map_cons, List.mem_cons] at h
      have hna : n = a.1 := h.resolve_right hmem
      obtain ⟨h1, h2, h3⟩ := installAll_not_mem t (installOne s a.1 a.2) n hmem
      exact ⟨a.2, by rw [h1]; simp [installOne, setMethod, hna],
        by rw [h2]; simp [installOne, setMethod, hna],
        by rw [h3]; simp [installOne, setMethod, hna]⟩

theorem installAll_agree (l : MatcherMap) (s : RegState)
    (h : registriesAgree s) : registriesAgree (installAll s l) := by
  induction l generalizing s with
  | nil => exact h
  | cons a t ih =>
    rw [installAll_cons]
    refine ih (installOne s a.1 a.2) (fun n => ?_)
    by_cases hna : n = a.1
    · simp [installOne, setMethod, hna]
    · simpa [installOne, setMethod, hna] using h n

theorem installAll_append (s : RegState) (l₁ l₂ : MatcherMap) :
    installAll s (l₁ ++ l₂) = installAll (installAll s l₁) l₂ := by
  simp [installAll, List.foldl_append]

theorem jestExtendPlugin_builtin_last (s : RegState) (ms : MatcherMap) :
    (jestExtendPlugin s ms).jestMatchers "toHaveBeenCalledBefore"
      = some (.softWrapped .builtinCalledBefore) ∧
    (jestExtendPlugin s ms).assertionProto "toHaveBeenCalledBefore"
      = some (.softWrapped .builtinCalledBefore) ∧
    (jestExtendPlugin s ms).asymmetricMatchers "toHaveBeenCalledBefore"
      = some (.asymCtor false .builtinCalledBefore) := by
  unfold jestExtendPlugin mergeBuiltins
  rw [installAll_append]
  exact ⟨by simp [installAll, installOne, setMethod],
    by simp [installAll, installOne, setMethod],
    by simp [installAll, installOne, setMethod]⟩

end RegistrationLemmas

section ClaimTheorems

/-- C1: for a matcher invoked through the fluent adapter with a synchronously
resolved verdict and the negation flag `isNot` read at call time, a structured
failure carrying `message()`, `actual` and `expected` is thrown if and only if
`(pass && isNot) || (!pass && !isNot)`; otherwise the call returns normally
(void). -/
theorem fluent_sync_decision_rule (isNot : Bool) (r : SyncExpectationResult) :
    (expectWrapper isNot (.sync r)
        = .thrown ⟨r.message (), r.actual, r.expected⟩
      ↔ ((r.pass && isNot) || (!r.pass && !isNot)) = true) ∧
    (expectWrapper isNot (.sync r) = .retVoid
      ↔ ((r.pass && isNot) || (!r.pass && !isNot)) = false) := by
  cases hc : (r.pass && isNot) || (!r.pass && !isNot) <;>
    simp [expectWrapper, hc]

/-- C8: for a matcher invoked through the fluent adapter whose verdict is a
Promise, the adapter returns a deferred value (never a synchronous return or
throw), and that deferred value rejects with the structured failure carrying
`message()`, `actual` and `expected` exactly when
`(pass && isNot) || (!pass && !isNot)` holds of the settled verdict, and
resolves normally otherwise. -/
theorem fluent_async_decision_rule (isNot : Bool) (r : SyncExpectationResult) :
    (expectWrapper isNot (.promise r)
        = .promiseRejected ⟨r.message (), r.actual, r.expected⟩
      ↔ ((r.pass && isNot) || (!r.pass && !isNot)) = true) ∧
    (expectWrapper isNot (.promise r) = .promiseResolved
      ↔ ((r.pass && isNot) || (!r.pass && !isNot)) = false) ∧
    expectWrapper isNot (.promise r) ≠ .retVoid ∧
    ∀ e, expectWrapper isNot (.promise r) ≠ .thrown e := by
  cases hc : (r.pass && isNot) || (!r.pass && !isNot) <;>
    simp [expectWrapper, hc]

/-- C5: for a matcher whose verdict resolves synchronously, an asymmetric
instance's `asymmetricMatch` returns `inverse ? !pass : pass`, and the
`inverse = true` instance's result is always the boolean negation of the
`inverse = false` instance's result on the same return value. -/
theorem asymmetric_sync_negation (inverse : Bool) (r : SyncExpectationResult) :
    asymmetricMatch inverse (.sync r)
      = .jsBool (if inverse then !r.pass else r.pass) ∧
    jsTruthy (asymmetricMatch true (.sync r))
      = !jsTruthy (asymmetricMatch false (.sync r)) := by
  cases inverse <;> simp [asymmetricMatch, passFieldOf, jsNot, jsTruthy]

/-- C10: when the matcher returns a Promise, `asymmetricMatch` raises no
error and reads `pass` as `undefined`: the `inverse = false` instance returns
the falsy `undefined` and the `inverse = true` instance returns `true`,
regardless of what the Promise would eventually resolve to. -/
theorem asymmetric_promise_pass_undefined (r : SyncExpectationResult) :
    asymmetricMatch false (.promise r) = .jsUndefined ∧
    jsTruthy (asymmetricMatch false (.promise r)) = false ∧
    asymmetricMatch true (.promise r) = .jsBool true :=
  ⟨rfl, rfl, rfl⟩

/-- C2: `predicate a b failIfNoSecondInvocation` is false when `a` is empty;
equals `!failIfNoSecondInvocation` when `a` is nonempty and `b` is empty; and
otherwise is true iff `min a < min b`; in particular `a = [1,5], b = [3]`
passes, `a = [2], b = [1]` fails, and `a = [1], b = []` with the flag false
passes. -/
theorem calledBefore_predicate_rule (a b : List Nat) (flag : Bool) :
    (a = [] → predicate a b flag = false) ∧
    (a ≠ [] → b = [] → predicate a b flag = !flag) ∧
    (∀ x xs y ys, a = x :: xs → b = y :: ys →
      (predicate a b flag = true ↔
        List.foldl Nat.min x xs < List.foldl Nat.min y ys)) ∧
    predicate [1, 5] [3] flag = true ∧
    predicate [2] [1] flag = false ∧
    predicate [1] [] false = true := by
  refine ⟨fun h => ?_, fun ha hb => ?_, fun x xs y ys hx hy => ?_, ?_, ?_, ?_⟩
  · subst h; rfl
  · cases a with
    | nil => exact absurd rfl ha
    | cons x xs => subst hb; rfl
  · subst hx; subst hy; simp [predicate]
  · cases flag <;> decide
  · cases flag <;> decide
  · decide

/-- Witness for C2 at concrete inputs. -/
theorem calledBefore_predicate_rule_witness :
    predicate [] [7] true = false ∧
    predicate [4] [] true = false ∧
    (predicate [1, 5] [3] true = true ↔
      List.foldl Nat.min 1 [5] < List.foldl Nat.min 3 []) :=
  by
  refine ⟨(calledBefore_predicate_rule [] [7] true).1 rfl, ?_,
    (calledBefore_predicate_rule [1, 5] [3] true).2.2.1 1 [5] 3 [] rfl rfl⟩
  simpa using (calledBefore_predicate_rule [4] [] true).2.1 (by decide) rfl

/-- C3 counterexample: extending with a user map containing an entry named
`toHaveBeenCalledBefore` does NOT install the user-supplied function; the
registry ends up holding the built-in, because the built-in is written after
the spread in `{ ...matchers, toHaveBeenCalledBefore }`. -/
theorem builtin_shadowing_counterexample :
    (jestExtendPlugin emptyState
        [("toHaveBeenCalledBefore", .user 0)]).jestMatchers
        "toHaveBeenCalledBefore"
      ≠ some (.softWrapped (.user 0)) ∧
    (jestExtendPlugin emptyState
        [("toHaveBeenCalledBefore", .user 0)]).jestMatchers
        "toHaveBeenCalledBefore"
      = some (.softWrapped .builtinCalledBefore) := by
  constructor <;> decide

/-- C3 amended: when `extend` is called with a matcher map containing an
entry named `toHaveBeenCalledBefore`, the built-in shadows the user-supplied
entry (the built-in is the last write on the merged mapping): the function
installed on all registries under that name comes from the built-in. -/
theorem builtin_shadows_user_entry (s : RegState) (ms : MatcherMap) :
    objGet (mergeBuiltins ms) "toHaveBeenCalledBefore"
      = some .builtinCalledBefore ∧
    (jestExtendPlugin s ms).jestMatchers "toHaveBeenCalledBefore"
      = some (.softWrapped .builtinCalledBefore) ∧
    (jestExtendPlugin s ms).assertionProto "toHaveBeenCalledBefore"
      = some (.softWrapped .builtinCalledBefore) ∧
    (jestExtendPlugin s ms).asymmetricMatchers "toHaveBeenCalledBefore"
      = some (.asymCtor false .builtinCalledBefore) := by
  refine ⟨?_, jestExtendPlugin_builtin_last s ms⟩
  simp [objGet, mergeBuiltins, List.find?]

/-- C4: after registration completes, every name in the merged mapping is
present in all three registries, and if the registries agreed on presence
before the call they agree afterwards (no name present in one registry but
missing from another). -/
theorem registration_three_registries (s : RegState) (ms : MatcherMap)
    (h : registriesAgree s) :
    (∀ n, n ∈ (mergeBuiltins ms).map Prod.fst →
      ((jestExtendPlugin s ms).jestMatchers n).isSome = true ∧
      ((jestExtendPlugin s ms).assertionProto n).isSome = true ∧
      ((jestExtendPlugin s ms).asymmetricMatchers n).isSome = true) ∧
    registriesAgree (jestExtendPlugin s ms) := by
  constructor
  · intro n hn
    obtain ⟨m, h1, h2, h3⟩ := installAll_mem (mergeBuiltins ms) s n hn
    exact ⟨by simp [jestExtendPlugin, h1], by simp [jestExtendPlugin, h2],
      by simp [jestExtendPlugin, h3]⟩
  · exact installAll_agree (mergeBuiltins ms) s h

/-- Witness for C4: registration over the empty registries with one user
matcher. -/
theorem registration_three_registries_witness :
    registriesAgree emptyState ∧
    ((∀ n, n ∈ (mergeBuiltins [("myMatcher", .user 1)]).map Prod.fst →
      ((jestExtendPlugin emptyState
          [("myMatcher", .user 1)]).jestMatchers n).isSome = true ∧
      ((jestExtendPlugin emptyState
          [("myMatcher", .user 1)]).assertionProto n).isSome = true ∧
      ((jestExtendPlugin emptyState
          [("myMatcher", .user 1)]).asymmetricMatchers n).isSome = true) ∧
    registriesAgree (jestExtendPlugin emptyState [("myMatcher", .user 1)])) :=
  ⟨fun _ => ⟨rfl, rfl⟩,
    registration_three_registries emptyState [("myMatcher", .user 1)]
      (fun _ => ⟨rfl, rfl⟩)⟩

/-- C7: for every name processed by the registration loop, the function
installed on both fluent surfaces is the soft-wrapped adapter
`wrapSoft(utils, expectWrapper)` — never a bare un-soft-wrapped adapter — and
the two surfaces hold the same wrapped function. -/
theorem fluent_surfaces_soft_wrapped (s : RegState) (ms : MatcherMap)
    (n : String) (h : n ∈ (mergeBuiltins ms).map Prod.fst) :
    ∃ m : MatcherRef,
      (jestExtendPlugin s ms).jestMatchers n = some (.softWrapped m) ∧
      (jestExtendPlugin s ms).assertionProto n = some (.softWrapped m) :=
  (installAll_mem (mergeBuiltins ms) s n h).imp
    (fun _ hm => ⟨hm.1, hm.2.1⟩)

/-- Witness for C7 at the built-in's name over the empty registries. -/
theorem fluent_surfaces_soft_wrapped_witness :
    ∃ m : MatcherRef,
      (jestExtendPlugin emptyState []).jestMatchers "toHaveBeenCalledBefore"
        = some (.softWrapped m) ∧
      (jestExtendPlugin emptyState []).assertionProto "toHaveBeenCalledBefore"
        = some (.softWrapped m) :=
  fluent_surfaces_soft_wrapped emptyState [] "toHaveBeenCalledBefore"
    (by decide)

/-- C6: when `actual` is not recognized as a mock/spy the verdict has
`pass = false` and a message containing "Received value must be a mock or spy
function"; when `actual` is valid but `expected` is not, the verdict has
`pass = false` and a message containing "Expected value must be a mock or spy
function". -/
theorem calledBefore_invalid_mock_message (utils : MatcherUtils)
    (a e : JsValue) (flag : Bool) :
    (isJestMockOrSpy a = false →
      (toHaveBeenCalledBefore utils a e flag).pass = false ∧
      strContains ((toHaveBeenCalledBefore utils a e flag).message ())
        "Received value must be a mock or spy function" = true) ∧
    (isJestMockOrSpy a = true → isJestMockOrSpy e = false →
      (toHaveBeenCalledBefore utils a e flag).pass = false ∧
      strContains ((toHaveBeenCalledBefore utils a e flag).message ())
        "Expected value must be a mock or spy function" = true) := by
  constructor
  · intro h
    refine ⟨by simp [toHaveBeenCalledBefore, h], ?_⟩
    simp only [toHaveBeenCalledBefore, h, Bool.not_false, if_pos]
    apply strContains_append_right_str
    apply strContains_append_right_str
    apply strContains_append_right_str
    exact strContains_append_end _ _
  · intro h1 h2
    refine ⟨by simp [toHaveBeenCalledBefore, h1, h2], ?_⟩
    simp only [toHaveBeenCalledBefore, h1, h2, Bool.not_false, Bool.not_true,
      if_pos, if_neg, Bool.false_eq_true, not_false_eq_true]
    apply strContains_append_right_str
    apply strContains_append_right_str
    apply strContains_append_right_str
    exact strContains_append_end _ _

/-- Witness for C6: a plain object on each side in turn. -/
theorem calledBefore_invalid_mock_message_witness :
    ((toHaveBeenCalledBefore defaultUtils (.obj "x") (.mockFn [])
        true).pass = false ∧
      strContains ((toHaveBeenCalledBefore defaultUtils (.obj "x")
          (.mockFn []) true).message ())
        "Received value must be a mock or spy function" = true) ∧
    ((toHaveBeenCalledBefore defaultUtils (.mockFn []) (.obj "y")
        true).pass = false ∧
      strContains ((toHaveBeenCalledBefore defaultUtils (.mockFn [])
          (.obj "y") true).message ())
        "Expected value must be a mock or spy function" = true) :=
  ⟨(calledBefore_invalid_mock_message defaultUtils (.obj "x") (.mockFn [])
      true).1 rfl,
    (calledBefore_invalid_mock_message defaultUtils (.mockFn []) (.obj "y")
      true).2 rfl rfl⟩

/-- C9: with two valid mocks, the lazily computed message always contains the
rendering of both invocation-order lists; any failure thrown by the fluent
adapter carries the negated-wording message exactly when `isNot` is true and
the positive-wording message exactly when it is false; and the negated
wording contains the "not have been called before" text while the positive
wording does not. -/
theorem calledBefore_message_negation (utils : MatcherUtils) (a b : List Nat)
    (flag isNot : Bool) :
    (strContains
        ((toHaveBeenCalledBefore utils (.mockFn a) (.mockFn b)
          flag).message ())
        (utils.printExpected (.numList a)) = true ∧
      strContains
        ((toHaveBeenCalledBefore utils (.mockFn a) (.mockFn b)
          flag).message ())
        (utils.printReceived (.numList b)) = true) ∧
    (∀ err, expectWrapper isNot
        (.sync (toHaveBeenCalledBefore utils (.mockFn a) (.mockFn b) flag))
        = .thrown err →
      err.message = if isNot then calledBeforeNotMessage utils a b
        else calledBeforeFailMessage utils a b) ∧
    strContains (calledBeforeNotMessage defaultUtils [1] [2])
      "not have been called before" = true ∧
    strContains (calledBeforeFailMessage defaultUtils [2] [1])
      "not have been called before" = false := by
  refine ⟨⟨?_, ?_⟩, ?_, by decide, by decide⟩
  · cases hp : predicate a b flag <;>
      simp only [toHaveBeenCalledBefore, isJestMockOrSpy, invocationOrderOf,
        Bool.not_true, Bool.false_eq_true, if_neg, if_pos, hp,
        not_false_eq_true, calledBeforeNotMessage, calledBeforeFailMessage] <;>
      · apply strContains_append_right_str
        apply strContains_append_right_str
        apply strContains_append_right_str
        exact strContains_append_end _ _
  · cases hp : predicate a b flag <;>
      simp only [toHaveBeenCalledBefore, isJestMockOrSpy, invocationOrderOf,
        Bool.not_true, Bool.false_eq_true, if_neg, if_pos, hp,
        not_false_eq_true, calledBeforeNotMessage, calledBeforeFailMessage] <;>
      exact strContains_append_end _ _
  · intro err he
    obtain ⟨em, ea, ex⟩ := err
    cases hp : predicate a b flag <;> cases hn : isNot <;>
      simp only [expectWrapper, toHaveBeenCalledBefore, isJestMockOrSpy,
        invocationOrderOf, Bool.not_true, Bool.false_eq_true, if_neg, if_pos,
        hp, hn, not_false_eq_true, Bool.and_self, Bool.and_false,
        Bool.false_and, Bool.true_and, Bool.and_true, Bool.or_self,
        Bool.not_false, Bool.false_or, Bool.or_false, if_true, if_false,
        Bool.true_or, Bool.or_true] at he ⊢ <;>
      simp_all

/-- Witness for C9: a positive assertion on mocks called in the wrong order
throws, and the thrown failure carries the positive-wording message. -/
theorem calledBefore_message_negation_witness :
    (JestExtendError.mk (calledBeforeFailMessage defaultUtils [2] [1])
        none none).message
      = if false then calledBeforeNotMessage defaultUtils [2] [1]
        else calledBeforeFailMessage defaultUtils [2] [1] :=
  (calledBefore_message_negation defaultUtils [2] [1] true false).2.1
    (JestExtendError.mk (calledBeforeFailMessage defaultUtils [2] [1])
      none none)
    (by decide)

end ClaimTheorems
